import Mathlib

/-!
# Verification of the escape_sdk bridge transport layer

Shallow embedding of the shared-memory RPC protocol
(`src/escape_sdk/_internal/api.py`, class `RuneLiteAPI`) and of the
inotify-driven event consumer
(`src/escape_sdk/_internal/events/consumer.py`, class `EventConsumer`).

Machine integers are modelled as `Nat` (all values involved are unsigned and
far below their 2^32 / 2^64 bounds; bitwise tests use `&&&`).  Byte buffers
are `List Nat`.  The polling loop of `_waitForResponse` is modelled over the
finite trace of response-region snapshots the loop reads, one per iteration
(the backoff sleeps only affect timing, not the decision logic); an exhausted
trace is the timeout.  Filesystem state is modelled as explicit lists of
files.
-/

namespace EscapeSDK

/-! ## Protocol constants (api.py, module level) -/

def REQUEST_MAGIC : Nat := 0x42524551

def RESPONSE_MAGIC : Nat := 0x42525350

def PROTOCOL_VERSION : Nat := 1

def FLAG_REQUEST_PENDING : Nat := 0x01

def FLAG_RESPONSE_READY : Nat := 0x01

def FLAG_ERROR : Nat := 0x02

/-! ## Response region and `_waitForResponse` -/

/-- One snapshot of the response shared-memory region, as read by one
iteration of the poll loop in `_waitForResponse`: the header fields at
their fixed offsets plus the payload area. -/
structure RespRegion where
  magic : Nat
  version : Nat
  sequence : Nat
  length : Nat
  flags : Nat
  payload : List Nat
deriving DecidableEq, Repr

/-- Outcome of `_waitForResponse`: either the function returns
(`ret data flagsCleared`, where `data = none` models the Python `None` and
`flagsCleared` records whether `_clearResponseFlags` ran before returning),
or it raises the desync `RuntimeError` carrying the mismatched sequence. -/
inductive WaitResult where
  | ret (data : Option (List Nat)) (flagsCleared : Bool)
  | raiseDesync (got : Nat)
deriving DecidableEq, Repr

/-- The poll loop body of `RuneLiteAPI._waitForResponse`, run over the trace
of region snapshots observed by successive iterations; the empty trace is
the timeout path (which returns `None` without clearing flags).  Mirrors the
source order of checks: ready flag, magic, sequence, length, payload read. -/
def waitLoop (expected : Nat) : List RespRegion → WaitResult
  | [] => .ret none false
  | r :: rest =>
    if r.flags &&& FLAG_RESPONSE_READY = 0 then
      waitLoop expected rest
    else if r.magic ≠ RESPONSE_MAGIC then
      .ret none true
    else if r.sequence ≠ expected then
      .raiseDesync r.sequence
    else if r.length = 0 then
      .ret none true
    else
      .ret (some (r.payload.take r.length)) true

/-- Outcome of `RuneLiteAPI.executeBatchQuery` at the point where it has
called `_waitForResponse`: `timeoutError` is the
`{"error": "Timeout waiting for batch response", "success": False}` dict,
`proceed` carries the bytes handed to `_decodeMsgpackResponse`, and
`desyncRaised` is the propagated `RuntimeError`. -/
inductive BatchOutcome where
  | timeoutError
  | proceed (data : List Nat)
  | desyncRaised (got : Nat)
deriving DecidableEq, Repr

/-- `executeBatchQuery`'s handling of the `_waitForResponse` result:
`if not data: return {"error": "Timeout ...", "success": False}` — both
`None` and an empty byte string are falsy in Python. -/
def executeBatchHandle : WaitResult → BatchOutcome
  | .raiseDesync got => .desyncRaised got
  | .ret none _ => .timeoutError
  | .ret (some data) _ => if data = [] then .timeoutError else .proceed data

/-- A snapshot on which the poll loop keeps polling: the ready bit is clear. -/
def RespRegion.notReady (r : RespRegion) : Prop :=
  r.flags &&& FLAG_RESPONSE_READY = 0

instance (r : RespRegion) : Decidable r.notReady := by
  unfold RespRegion.notReady; infer_instance

/-! ## `_sendRequest` write trace -/

/-- One write to shared memory performed by `RuneLiteAPI._sendRequest`, in
the order the source performs them.  The payload write (a single
`write(encoded_data)` call at `OFFSET_PAYLOAD`) is refined to one action per
byte so that "partially written payload" is expressible. -/
inductive WriteAction where
  | clearResponseHeader
  | magicW (v : Nat)
  | versionW (v : Nat)
  | sequenceW (v : Nat)
  | lengthW (v : Nat)
  | payloadByteW (off : Nat) (b : Nat)
  | flagsW (v : Nat)
deriving DecidableEq, Repr

def WriteAction.isMagicW : WriteAction → Bool
  | .magicW _ => true
  | _ => false

def WriteAction.isVersionW : WriteAction → Bool
  | .versionW _ => true
  | _ => false

def WriteAction.isSequenceW : WriteAction → Bool
  | .sequenceW _ => true
  | _ => false

def WriteAction.isLengthW : WriteAction → Bool
  | .lengthW _ => true
  | _ => false

def WriteAction.isPayloadByteW : WriteAction → Bool
  | .payloadByteW _ _ => true
  | _ => false

def WriteAction.isFlagsW : WriteAction → Bool
  | .flagsW _ => true
  | _ => false

/-- The byte-by-byte payload write starting at relative offset `off`. -/
def payloadWrites (off : Nat) : List Nat → List WriteAction
  | [] => []
  | b :: bs => .payloadByteW off b :: payloadWrites (off + 1) bs

/-- The sequence of shared-memory writes performed by one execution of
`RuneLiteAPI._sendRequest` with sequence number `seq` and encoded payload
`encoded`: clear the response header, then magic, version, sequence, length,
the payload bytes, and the pending flag last.  (The preceding wait for the
previous pending flag to clear performs only reads and is not a write.) -/
def sendRequestTrace (seq : Nat) (encoded : List Nat) : List WriteAction :=
  .clearResponseHeader ::
  .magicW REQUEST_MAGIC ::
  .versionW PROTOCOL_VERSION ::
  .sequenceW seq ::
  .lengthW encoded.length ::
  (payloadWrites 0 encoded ++ [.flagsW FLAG_REQUEST_PENDING])

/-! ## `_decodeMsgpackResponse` -/

/-- Little-endian unsigned 32-bit read at byte offset `off`
(`struct.unpack("<I", data[off:off+4])`); out-of-range bytes default to 0,
which the callers below never rely on. -/
def readU32LE (data : List Nat) (off : Nat) : Nat :=
  data.getD off 0 + data.getD (off + 1) 0 * 256 +
    data.getD (off + 2) 0 * 65536 + data.getD (off + 3) 0 * 16777216

/-- The bytes `RuneLiteAPI._decodeMsgpackResponse` hands to
`msgpack.unpackb`: when the buffer is at least 8 bytes and starts with the
`0xDEADBEEF` integrity magic, only the declared number of bytes after the
8-byte header (`data[8 : 8 + msg_size]`); otherwise the whole buffer. -/
def decodeMsgpackResponse (data : List Nat) : List Nat :=
  if 8 ≤ data.length ∧ readU32LE data 0 = 0xDEADBEEF then
    (data.drop 8).take (readU32LE data 4)
  else
    data

/-- Little-endian 4-byte encoding of `n` (`struct.pack("<I", n)`). -/
def u32LEBytes (n : Nat) : List Nat :=
  [n % 256, n / 256 % 256, n / 65536 % 256, n / 16777216 % 256]

/-- An integrity-wrapped message as the bridge produces it: the
`0xDEADBEEF` magic, the 4-byte message size, then the message bytes. -/
def integrityFrame (msg : List Nat) : List Nat :=
  u32LEBytes 0xDEADBEEF ++ u32LEBytes msg.length ++ msg

/-! ## Event consumer: ring-buffer drain (`EventConsumer._processRingBuffer`)

A ring-buffer file `/dev/shm/<channel>.<suffix>` is modelled by its suffix
and its content.  `seq = some n` models a file whose suffix is the digit
string of `n` (`parts[-1].isdigit()`); `seq = none` models a non-digit
suffix.  `content = some ev` models a file whose bytes deserialize to the
event `ev`; `content = none` models a file on which `open`/`msgpack.unpackb`
raises (corrupt file), the exception being caught by the per-file
`except` block. -/

/-- One ring-buffer event file: numeric suffix (if any) and decoded
content (if deserialization succeeds). -/
structure RBFile where
  seq : Option Nat
  content : Option Nat
deriving DecidableEq, Repr

/-- The Python sort key
`int(x.split(".")[-1]) if x.split(".")[-1].isdigit() else 0`. -/
def sortKey (f : RBFile) : Nat := f.seq.getD 0

/-- Stable insertion of a file into an already-sorted list: `f` goes before
the first file whose key is not strictly smaller, so earlier list elements
stay ahead of later equal-key ones, as with Python's stable `sorted`. -/
def insertFile (f : RBFile) : List RBFile → List RBFile
  | [] => [f]
  | g :: gs => if sortKey g < sortKey f then g :: insertFile f gs else f :: g :: gs

/-- `sorted(files, key=...)`: stable ascending sort by `sortKey`. -/
def sortFiles (l : List RBFile) : List RBFile :=
  l.foldr insertFile []

/-- The consumer-side effects of one `_processRingBuffer` call on one
channel: the per-channel cursor `last_seq[channel]`, the `(seq, event)`
pairs delivered to `cache.addEvent` in order, the value of
`events_processed`, the visited files still on disk afterwards, and the
gap warnings logged as `(expected_seq, seq)` pairs. -/
structure DrainState where
  lastSeq : Nat
  delivered : List (Nat × Nat)
  count : Nat
  remaining : List RBFile
  gapWarnings : List (Nat × Nat)
deriving DecidableEq, Repr

/-- The body of the `for filepath in files` loop of `_processRingBuffer`
for one file: non-digit suffixes are skipped (file kept); `seq <= last_seq`
is deleted and skipped; a deserialization failure is caught, logged, and
leaves the file on disk (the `os.remove` after processing is inside the
`try` and is not reached); otherwise a gap warning is recorded when
`seq != last_seq + 1 and last_seq > 0` and `warn_on_gaps`, the event is
delivered, `last_seq` is set to `seq`, the counter is bumped and the file
is deleted. -/
def processFile (warnOnGaps : Bool) (s : DrainState) (f : RBFile) : DrainState :=
  match f.seq with
  | none => ⟨s.lastSeq, s.delivered, s.count, s.remaining ++ [f], s.gapWarnings⟩
  | some n =>
    if n ≤ s.lastSeq then s
    else
      match f.content with
      | none => ⟨s.lastSeq, s.delivered, s.count, s.remaining ++ [f], s.gapWarnings⟩
      | some ev =>
        let warns :=
          if n ≠ s.lastSeq + 1 ∧ 0 < s.lastSeq ∧ warnOnGaps = true then
            s.gapWarnings ++ [(s.lastSeq + 1, n)]
          else s.gapWarnings
        ⟨n, s.delivered ++ [(n, ev)], s.count + 1, s.remaining, warns⟩

/-- `EventConsumer._processRingBuffer` on one channel whose cursor is
`lastSeq` and whose directory currently holds `files`: sort by numeric
suffix, then run the per-file loop. -/
def processRingBuffer (warnOnGaps : Bool) (lastSeq : Nat) (files : List RBFile) :
    DrainState :=
  (sortFiles files).foldl (processFile warnOnGaps) ⟨lastSeq, [], 0, [], []⟩

/-- The set of files `<c>.1 .. <c>.K`, all well-formed, with file `n`
deserializing to `ev n`. -/
def canonicalFiles (K : Nat) (ev : Nat → Nat) : List RBFile :=
  (List.range' 1 K).map fun n => ⟨some n, some (ev n)⟩

/-! ## Event consumer: latest-state drain (`EventConsumer._processLatestState`)

The state file `/dev/shm/<channel>` is modelled as `none` when absent and
as `some (mtime, content)` when present, where `content = none` models a
file on which `open`/`msgpack.unpackb` raises (caught by the function's
`except` block) and `content = some st` a file deserializing to `st`. -/

/-- Result of one `_processLatestState` call: the new value of
`last_state_mtime[channel]`, the event delivered to the cache (if any), and
the boolean return value. -/
structure StateDrainResult where
  cursor : Nat
  delivered : Option Nat
  updated : Bool
deriving DecidableEq, Repr

/-- `EventConsumer._processLatestState` with current cursor `cursor`:
return `False` when the file is absent or its mtime has not advanced;
otherwise the cursor is set to the file's mtime *before* the read, so a
read/decode exception is caught and logged but the cursor keeps the new
mtime; on success the state is delivered and `True` returned. -/
def processLatestState (cursor : Nat) (file : Option (Nat × Option Nat)) :
    StateDrainResult :=
  match file with
  | none => ⟨cursor, none, false⟩
  | some (mtime, content) =>
    if mtime ≤ cursor then ⟨cursor, none, false⟩
    else
      match content with
      | none => ⟨mtime, none, false⟩
      | some st => ⟨mtime, some st, true⟩

/-! ## Helper lemmas -/

/-- Poll iterations that see the ready bit clear just keep polling: a run of
not-ready snapshots at the front of the trace does not affect the result. -/
theorem waitLoop_skip_notReady (expected : Nat) :
    ∀ (pre : List RespRegion), (∀ s ∈ pre, s.notReady) →
      ∀ tail, waitLoop expected (pre ++ tail) = waitLoop expected tail
  | [], _, _ => rfl
  | a :: as, hpre, tail => by
    have ha : a.flags &&& FLAG_RESPONSE_READY = 0 := hpre a (List.mem_cons_self a as)
    show waitLoop expected (a :: (as ++ tail)) = waitLoop expected tail
    simp only [waitLoop]
    rw [if_pos ha]
    exact waitLoop_skip_notReady expected as
      (fun s hs => hpre s (List.mem_cons_of_mem a hs)) tail

/-! ## Claims about `_waitForResponse` and `executeBatchQuery` -/

/-- C1: in any `_waitForResponse` call whose poll loop, after any number of
not-ready iterations, observes a response-region snapshot with the ready
flag set, a valid magic and a sequence field different from the expected
sequence, the call raises the fatal desync `RuntimeError` (carrying the
mismatched sequence) and never returns the stale payload as data. -/
theorem waitForResponse_seq_mismatch_raises
    (expected : Nat) (pre rest : List RespRegion) (r : RespRegion)
    (hpre : ∀ s ∈ pre, s.notReady)
    (hready : ¬ r.flags &&& FLAG_RESPONSE_READY = 0)
    (hmagic : r.magic = RESPONSE_MAGIC)
    (hseq : r.sequence ≠ expected) :
    waitLoop expected (pre ++ r :: rest) = .raiseDesync r.sequence ∧
    ∀ d b, waitLoop expected (pre ++ r :: rest) ≠ .ret (some d) b := by
  have key : waitLoop expected (pre ++ r :: rest) = .raiseDesync r.sequence := by
    rw [waitLoop_skip_notReady expected pre hpre (r :: rest)]
    simp only [waitLoop]
    rw [if_neg hready, if_neg (by simp [hmagic]), if_pos hseq]
  refine ⟨key, ?_⟩
  intro d b h
  rw [key] at h
  exact WaitResult.noConfusion h

/-- Witness for C1 at a concrete input: expected sequence 3, stale reply
carrying sequence 7. -/
theorem waitForResponse_seq_mismatch_raises_witness :
    waitLoop 3 ([] ++ (⟨RESPONSE_MAGIC, 1, 7, 4, 1, [1, 2, 3, 4]⟩ : RespRegion) :: []) =
      .raiseDesync 7 :=
  (waitForResponse_seq_mismatch_raises 3 [] [] ⟨RESPONSE_MAGIC, 1, 7, 4, 1, [1, 2, 3, 4]⟩
    (fun s hs => absurd hs (List.not_mem_nil s)) (by decide) rfl (by decide)).1

/-- C5 counterexample: a bad-magic reply is *not* treated as "not ready
yet".  With a trace whose first snapshot is ready with a wrong magic and
whose second snapshot is a well-formed matching reply, `_waitForResponse`
returns `None` at the first snapshot (after clearing the flags); had the
bad-magic snapshot been treated as a not-ready poll iteration, the loop
would have gone on and returned the payload of the second snapshot. -/
theorem waitLoop_bad_magic_not_retried_cex :
    waitLoop 5 [⟨0x12345678, 1, 5, 3, 1, [7, 8, 9]⟩, ⟨RESPONSE_MAGIC, 1, 5, 3, 1, [7, 8, 9]⟩] =
      .ret none true ∧
    waitLoop 5 [⟨0, 0, 0, 0, 0, []⟩, ⟨RESPONSE_MAGIC, 1, 5, 3, 1, [7, 8, 9]⟩] =
      .ret (some [7, 8, 9]) true ∧
    waitLoop 5 [⟨0x12345678, 1, 5, 3, 1, [7, 8, 9]⟩, ⟨RESPONSE_MAGIC, 1, 5, 3, 1, [7, 8, 9]⟩] ≠
      waitLoop 5 [⟨0, 0, 0, 0, 0, []⟩, ⟨RESPONSE_MAGIC, 1, 5, 3, 1, [7, 8, 9]⟩] := by
  decide

/-- C5 (amended): when the poll loop, after any number of not-ready
iterations, observes the ready flag with a magic different from the
response magic constant, `_waitForResponse` clears the response flags and
immediately returns `None` — the malformed reply is treated as absence of a
reply (like a timeout) and its bytes are never propagated to the caller as
data; the loop does not keep polling. -/
theorem waitForResponse_bad_magic_returns_none
    (expected : Nat) (pre rest : List RespRegion) (r : RespRegion)
    (hpre : ∀ s ∈ pre, s.notReady)
    (hready : ¬ r.flags &&& FLAG_RESPONSE_READY = 0)
    (hmagic : r.magic ≠ RESPONSE_MAGIC) :
    waitLoop expected (pre ++ r :: rest) = .ret none true := by
  rw [waitLoop_skip_notReady expected pre hpre (r :: rest)]
  simp only [waitLoop]
  rw [if_neg hready, if_pos hmagic]

/-- Witness for the amended C5 at a concrete input. -/
theorem waitForResponse_bad_magic_returns_none_witness :
    waitLoop 5 ([] ++ (⟨0x12345678, 1, 5, 3, 1, [7, 8, 9]⟩ : RespRegion) ::
        [⟨RESPONSE_MAGIC, 1, 5, 3, 1, [7, 8, 9]⟩]) = .ret none true :=
  waitForResponse_bad_magic_returns_none 5 [] [⟨RESPONSE_MAGIC, 1, 5, 3, 1, [7, 8, 9]⟩]
    ⟨0x12345678, 1, 5, 3, 1, [7, 8, 9]⟩
    (fun s hs => absurd hs (List.not_mem_nil s)) (by decide) (by decide)

/-- C10: when the poll loop, after any number of not-ready iterations,
observes the ready flag with a valid magic, a matching sequence and a
`length` field equal to 0, `_waitForResponse` clears the response flags and
returns `None`; `executeBatchQuery` maps that `None` to the timeout failure
dict, exactly as it maps an actual poll-loop timeout, so a zero-length
reply is indistinguishable from a timeout at the caller's level and is not
returned as an empty payload. -/
theorem waitForResponse_zero_length_is_timeout
    (expected : Nat) (pre rest : List RespRegion) (r : RespRegion)
    (hpre : ∀ s ∈ pre, s.notReady)
    (hready : ¬ r.flags &&& FLAG_RESPONSE_READY = 0)
    (hmagic : r.magic = RESPONSE_MAGIC)
    (hseq : r.sequence = expected)
    (hlen : r.length = 0) :
    waitLoop expected (pre ++ r :: rest) = .ret none true ∧
    executeBatchHandle (waitLoop expected (pre ++ r :: rest)) = .timeoutError ∧
    executeBatchHandle (waitLoop expected []) = .timeoutError := by
  have key : waitLoop expected (pre ++ r :: rest) = .ret none true := by
    rw [waitLoop_skip_notReady expected pre hpre (r :: rest)]
    simp only [waitLoop]
    rw [if_neg hready, if_neg (by simp [hmagic]), if_neg (by simp [hseq]), if_pos hlen]
  exact ⟨key, by rw [key]; rfl, rfl⟩

/-- Witness for C10 at a concrete input. -/
theorem waitForResponse_zero_length_is_timeout_witness :
    waitLoop 4 ([⟨0, 0, 0, 0, 0, []⟩] ++ (⟨RESPONSE_MAGIC, 1, 4, 0, 1, [9, 9]⟩ : RespRegion) :: []) =
      .ret none true ∧
    executeBatchHandle
      (waitLoop 4 ([⟨0, 0, 0, 0, 0, []⟩] ++ (⟨RESPONSE_MAGIC, 1, 4, 0, 1, [9, 9]⟩ : RespRegion) :: [])) =
      .timeoutError ∧
    executeBatchHandle (waitLoop 4 []) = .timeoutError :=
  waitForResponse_zero_length_is_timeout 4 [⟨0, 0, 0, 0, 0, []⟩] []
    ⟨RESPONSE_MAGIC, 1, 4, 0, 1, [9, 9]⟩
    (by intro s hs; simp only [List.mem_singleton] at hs; subst hs; decide)
    (by decide) rfl rfl rfl

/-! ## Claim about `_sendRequest` write ordering -/

/-- Length of the byte-by-byte payload write equals the payload length. -/
theorem payloadWrites_length (off : Nat) (bs : List Nat) :
    (payloadWrites off bs).length = bs.length := by
  induction bs generalizing off with
  | nil => rfl
  | cons b bs ih => simp [payloadWrites, ih]

theorem payloadWrites_all_payload (off : Nat) (bs : List Nat) :
    (payloadWrites off bs).all WriteAction.isPayloadByteW = true := by
  induction bs generalizing off with
  | nil => rfl
  | cons b bs ih => simp [payloadWrites, WriteAction.isPayloadByteW, ih]

theorem payloadWrites_no_flags (off : Nat) (bs : List Nat) :
    ∀ a ∈ payloadWrites off bs, a.isFlagsW = false := by
  induction bs generalizing off with
  | nil => intro a ha; cases ha
  | cons b bs ih =>
    intro a ha
    rcases List.mem_cons.mp ha with h | h
    · subst h; rfl
    · exact ih (off + 1) a h

theorem sendRequestTrace_concat (seq : Nat) (encoded : List Nat) :
    sendRequestTrace seq encoded =
      (.clearResponseHeader :: .magicW REQUEST_MAGIC :: .versionW PROTOCOL_VERSION ::
        .sequenceW seq :: .lengthW encoded.length :: payloadWrites 0 encoded) ++
      [.flagsW FLAG_REQUEST_PENDING] := by
  simp [sendRequestTrace]

theorem sendRequest_write_order (seq : Nat) (encoded : List Nat) :
    (sendRequestTrace seq encoded).findIdx WriteAction.isMagicW = 1 ∧
    (sendRequestTrace seq encoded).findIdx WriteAction.isVersionW = 2 ∧
    (sendRequestTrace seq encoded).findIdx WriteAction.isSequenceW = 3 ∧
    (sendRequestTrace seq encoded).findIdx WriteAction.isLengthW = 4 ∧
    ((sendRequestTrace seq encoded).take 5).all (fun a => !a.isPayloadByteW) = true ∧
    ((sendRequestTrace seq encoded).drop 5).dropLast.all WriteAction.isPayloadByteW = true ∧
    ((sendRequestTrace seq encoded).drop 5).dropLast.length = encoded.length ∧
    (sendRequestTrace seq encoded).dropLast.all (fun a => !a.isFlagsW) = true ∧
    (sendRequestTrace seq encoded).getLast? = some (.flagsW FLAG_REQUEST_PENDING) := by
  refine ⟨?_, ?_, ?_, ?_, ?_, ?_, ?_, ?_, ?_⟩
  · simp [sendRequestTrace, List.findIdx_cons, WriteAction.isMagicW,
      WriteAction.isVersionW, WriteAction.isSequenceW, WriteAction.isLengthW]
  · simp [sendRequestTrace, List.findIdx_cons, WriteAction.isMagicW,
      WriteAction.isVersionW, WriteAction.isSequenceW, WriteAction.isLengthW]
  · simp [sendRequestTrace, List.findIdx_cons, WriteAction.isMagicW,
      WriteAction.isVersionW, WriteAction.isSequenceW, WriteAction.isLengthW]
  · simp [sendRequestTrace, List.findIdx_cons, WriteAction.isMagicW,
      WriteAction.isVersionW, WriteAction.isSequenceW, WriteAction.isLengthW]
  · simp [sendRequestTrace, WriteAction.isPayloadByteW]
  · simp only [sendRequestTrace, List.drop_succ_cons, List.drop_zero,
      List.dropLast_concat]
    exact payloadWrites_all_payload 0 encoded
  · simp only [sendRequestTrace, List.drop_succ_cons, List.drop_zero,
      List.dropLast_concat]
    exact payloadWrites_length 0 encoded
  · rw [sendRequestTrace_concat, List.dropLast_concat, List.all_eq_true]
    intro x hx
    simp only [List.mem_cons] at hx
    rcases hx with h | h | h | h | h | h
    · subst h; rfl
    · subst h; rfl
    · subst h; rfl
    · subst h; rfl
    · subst h; rfl
    · simp [payloadWrites_no_flags 0 encoded x h]
  · rw [sendRequestTrace_concat, List.getLast?_concat]

/-! ## Claim about `_decodeMsgpackResponse` -/

/-- The integrity frame written out as an explicit byte list. -/
theorem integrityFrame_cons (msg : List Nat) :
    integrityFrame msg =
      239 :: 190 :: 173 :: 222 :: (msg.length % 256) :: (msg.length / 256 % 256) ::
      (msg.length / 65536 % 256) :: (msg.length / 16777216 % 256) :: msg := by
  simp [integrityFrame, u32LEBytes]

/-- C9: a payload that is at least 8 bytes and begins with the `0xDEADBEEF`
integrity magic followed by the 4-byte declared message size has exactly
the declared number of bytes after the 8-byte header deserialized, with any
trailing leftover bytes (`junk`) ignored; a payload without that prefix is
deserialized in its entirety. -/
theorem decodeMsgpackResponse_spec (msg junk data : List Nat)
    (hsize : msg.length < 4294967296)
    (hplain : data.length < 8 ∨ readU32LE data 0 ≠ 0xDEADBEEF) :
    decodeMsgpackResponse (integrityFrame msg ++ junk) = msg ∧
    decodeMsgpackResponse data = data := by
  constructor
  · have hlen : 8 ≤ (integrityFrame msg ++ junk).length := by
      rw [integrityFrame_cons]; simp
    have hmagic : readU32LE (integrityFrame msg ++ junk) 0 = 0xDEADBEEF := by
      rw [integrityFrame_cons]
      simp only [readU32LE, List.cons_append, List.getD_cons_succ, List.getD_cons_zero]
    have hsz : readU32LE (integrityFrame msg ++ junk) 4 = msg.length := by
      rw [integrityFrame_cons]
      simp only [readU32LE, List.cons_append, List.getD_cons_succ, List.getD_cons_zero]
      omega
    have hdrop : (integrityFrame msg ++ junk).drop 8 = msg ++ junk := by
      rw [integrityFrame_cons]
      simp
    rw [decodeMsgpackResponse, if_pos ⟨hlen, hmagic⟩, hsz, hdrop, List.take_left]
  · rw [decodeMsgpackResponse, if_neg]
    rintro ⟨h1, h2⟩
    rcases hplain with h | h
    · omega
    · exact h h2

/-- Witness for C9 at concrete inputs: a framed 2-byte message with 3
trailing junk bytes, and a 3-byte unframed buffer. -/
theorem decodeMsgpackResponse_spec_witness :
    decodeMsgpackResponse (integrityFrame [5, 6] ++ [7, 7, 7]) = [5, 6] ∧
    decodeMsgpackResponse [1, 2, 3] = [1, 2, 3] :=
  decodeMsgpackResponse_spec [5, 6] [7, 7, 7] [1, 2, 3] (by decide) (by decide)

/-! ## Claims about `_processRingBuffer` per-file behaviour -/

/-- C6: a ring-buffer file whose sequence number `n` satisfies
`n <= last_seq[channel]` at the moment the drain loop reaches it is skipped
with the consumer state unchanged — no event is delivered, `last_seq` keeps
its value, no warning is logged — and the file is removed from disk (it is
not added to the files that survive the drain). -/
theorem processFile_stale_deleted_and_skipped
    (w : Bool) (s : DrainState) (f : RBFile) (n : Nat)
    (hn : f.seq = some n) (hle : n ≤ s.lastSeq) :
    processFile w s f = s ∧ (processFile w s f).remaining = s.remaining := by
  obtain ⟨sq, c⟩ := f
  cases hn
  have : processFile w s ⟨some n, c⟩ = s := by
    simp [processFile, hle]
  exact ⟨this, by rw [this]⟩

/-- Witness for C6 at a concrete input: cursor 3, stale file with
sequence 2. -/
theorem processFile_stale_deleted_and_skipped_witness :
    processFile true ⟨3, [], 0, [], []⟩ ⟨some 2, some 9⟩ = ⟨3, [], 0, [], []⟩ ∧
    (processFile true ⟨3, [], 0, [], []⟩ ⟨some 2, some 9⟩).remaining = [] :=
  processFile_stale_deleted_and_skipped true ⟨3, [], 0, [], []⟩ ⟨some 2, some 9⟩ 2
    rfl (by decide)

/-- C7 counterexample: the claim quantifies over every file with
`N != last_seq[channel] + 1` while `last_seq[channel] > 0`, which includes
stale files (`N <= last_seq`).  With `last_seq = 2 > 0` and a decodable
file of sequence `N = 1 != 3`, the code delivers nothing, logs no gap
warning and does not set `last_seq = 1` — it deletes and skips the file —
so the claimed delivery fails. -/
theorem processFile_gap_claim_cex :
    processFile true ⟨2, [], 0, [], []⟩ ⟨some 1, some 7⟩ = ⟨2, [], 0, [], []⟩ ∧
    (0 : Nat) < 2 ∧ (1 : Nat) ≠ 2 + 1 ∧
    (processFile true ⟨2, [], 0, [], []⟩ ⟨some 1, some 7⟩).delivered = [] ∧
    (processFile true ⟨2, [], 0, [], []⟩ ⟨some 1, some 7⟩).gapWarnings = [] ∧
    (processFile true ⟨2, [], 0, [], []⟩ ⟨some 1, some 7⟩).lastSeq ≠ 1 := by
  decide

/-- C7 (amended): for a file that is *ahead* of the cursor
(`last_seq < N`, with `last_seq > 0` and `N != last_seq + 1`) and that
deserializes successfully, the drain logs a gap warning exactly when
`warn_on_gaps` is set, still delivers the decoded event to the Cache, sets
`last_seq = N` and deletes the file — the gap neither drops the event nor
stops the drain. -/
theorem processFile_gap_still_delivered
    (w : Bool) (s : DrainState) (n ev : Nat)
    (hpos : 0 < s.lastSeq) (hgt : s.lastSeq < n) (hgap : n ≠ s.lastSeq + 1) :
    processFile w s ⟨some n, some ev⟩ =
      ⟨n, s.delivered ++ [(n, ev)], s.count + 1, s.remaining,
        if w then s.gapWarnings ++ [(s.lastSeq + 1, n)] else s.gapWarnings⟩ := by
  have hnle : ¬ n ≤ s.lastSeq := Nat.not_le.mpr hgt
  cases w with
  | true => simp [processFile, hnle, hgap, hpos]
  | false => simp [processFile, hnle]

/-- Witness for the amended C7 at a concrete input: cursor 2, file with
sequence 5 (gap over 3 and 4), warnings on. -/
theorem processFile_gap_still_delivered_witness :
    processFile true ⟨2, [], 0, [], []⟩ ⟨some 5, some 9⟩ =
      ⟨5, [] ++ [(5, 9)], 0 + 1, [],
        if true then ([] : List (Nat × Nat)) ++ [(2 + 1, 5)] else []⟩ :=
  processFile_gap_still_delivered true ⟨2, [], 0, [], []⟩ 5 9 (by decide) (by decide)
    (by decide)

/-- C4 counterexample: a visited ring-buffer file with a numeric sequence
suffix whose processing fails (its bytes do not deserialize) is *not*
deleted: the `os.remove` sits at the end of the `try` block and is never
reached when the exception is caught.  After draining a directory holding
only the corrupt file `<c>.1`, that file is still on disk. -/
theorem ringBuffer_failed_file_not_deleted_cex :
    processRingBuffer true 0 [⟨some 1, none⟩] = ⟨0, [], 0, [⟨some 1, none⟩], []⟩ ∧
    (processRingBuffer true 0 [⟨some 1, none⟩]).remaining ≠ [] := by
  decide

/-- C4 (amended): a visited file with a numeric sequence suffix is deleted
when its processing completes successfully, and also when it is skipped as
stale; but when processing raises, the exception is caught and the file
remains on disk (to be revisited by the next drain). -/
theorem processFile_deletion_policy
    (w : Bool) (s : DrainState) (f : RBFile) (n : Nat) (hn : f.seq = some n) :
    ((n ≤ s.lastSeq ∨ f.content ≠ none) → (processFile w s f).remaining = s.remaining) ∧
    (s.lastSeq < n → f.content = none → (processFile w s f).remaining = s.remaining ++ [f]) := by
  obtain ⟨sq, c⟩ := f
  cases hn
  constructor
  · rintro (hle | hc)
    · simp [processFile, hle]
    · by_cases hle : n ≤ s.lastSeq
      · simp [processFile, hle]
      · obtain ⟨ev, rfl⟩ := Option.ne_none_iff_exists.mp hc
        simp [processFile, hle]
  · intro hgt hc
    subst hc
    simp [processFile, Nat.not_le.mpr hgt]

/-- Witness for the amended C4 at a concrete input: a fresh decodable file
is not among the surviving files (it was processed and deleted). -/
theorem processFile_deletion_policy_witness :
    (processFile true ⟨0, [], 0, [], []⟩ ⟨some 1, some 5⟩).remaining = [] :=
  (processFile_deletion_policy true ⟨0, [], 0, [], []⟩ ⟨some 1, some 5⟩ 1 rfl).1
    (Or.inr (by decide))

/-! ## Claims about `_processLatestState` -/

/-- C3 counterexample: `_processLatestState` writes the new mtime into
`last_state_mtime[channel]` *before* reading the file, so when the
read/deserialize raises (content `none`), the cursor does not keep its
pre-call value: with cursor 3 and a corrupt state file of mtime 5, the
cursor afterwards is 5, not 3. -/
theorem latestState_cursor_advances_on_failure_cex :
    processLatestState 3 (some (5, none)) = ⟨5, none, false⟩ ∧
    (processLatestState 3 (some (5, none))).cursor ≠ 3 := by
  decide

/-- C3 (amended): when reading or deserializing the state file raises, the
exception is caught and logged and `False` is returned, but the per-channel
mtime cursor has already been advanced to the file's mtime before the read;
consequently the next notification does *not* retry the same file version
(a further call with the cursor at that mtime is a no-op). -/
theorem processLatestState_failure_semantics
    (cursor mtime : Nat) (h : cursor < mtime) :
    processLatestState cursor (some (mtime, none)) = ⟨mtime, none, false⟩ ∧
    processLatestState mtime (some (mtime, none)) = ⟨mtime, none, false⟩ := by
  constructor
  · simp [processLatestState, Nat.not_le.mpr h]
  · simp [processLatestState]

/-- Witness for the amended C3 at a concrete input: cursor 3, corrupt
state file with mtime 5. -/
theorem processLatestState_failure_semantics_witness :
    processLatestState 3 (some (5, none)) = ⟨5, none, false⟩ ∧
    processLatestState 5 (some (5, none)) = ⟨5, none, false⟩ :=
  processLatestState_failure_semantics 3 5 (by decide)

/-! ## Claim C8: full first drain of a ring-buffer channel -/

/-- Insertion produces a permutation of consing the element. -/
theorem insertFile_perm (f : RBFile) (l : List RBFile) :
    (insertFile f l).Perm (f :: l) := by
  induction l with
  | nil => exact List.Perm.refl _
  | cons g gs ih =>
    by_cases h : sortKey g < sortKey f
    · simp only [insertFile, if_pos h]
      exact (ih.cons g).trans (List.Perm.swap f g gs)
    · simp only [insertFile, if_neg h]
      exact List.Perm.refl _

/-- `sortFiles` permutes its input (`sorted` reorders, never drops). -/
theorem sortFiles_perm (l : List RBFile) : (sortFiles l).Perm l := by
  induction l with
  | nil => exact List.Perm.refl _
  | cons x xs ih =>
    show (insertFile x (sortFiles xs)).Perm (x :: xs)
    exact (insertFile_perm x (sortFiles xs)).trans (ih.cons x)

/-- Insertion into a key-sorted list keeps it key-sorted. -/
theorem insertFile_sorted (f : RBFile) (l : List RBFile)
    (h : l.Pairwise (fun a b => sortKey a ≤ sortKey b)) :
    (insertFile f l).Pairwise (fun a b => sortKey a ≤ sortKey b) := by
  induction l with
  | nil => simp [insertFile]
  | cons g gs ih =>
    rcases List.pairwise_cons.mp h with ⟨hg, hgs⟩
    by_cases hlt : sortKey g < sortKey f
    · simp only [insertFile, if_pos hlt]
      refine List.pairwise_cons.mpr ⟨?_, ih hgs⟩
      intro x hx
      rcases List.mem_cons.mp ((insertFile_perm f gs).mem_iff.mp hx) with h1 | h1
      · subst h1; exact Nat.le_of_lt hlt
      · exact hg x h1
    · simp only [insertFile, if_neg hlt]
      refine List.pairwise_cons.mpr ⟨?_, h⟩
      intro x hx
      rcases List.mem_cons.mp hx with h1 | h1
      · subst h1; exact Nat.le_of_not_lt hlt
      · exact Nat.le_trans (Nat.le_of_not_lt hlt) (hg x h1)

/-- `sortFiles` output is ascending in the numeric sort key. -/
theorem sortFiles_sorted (l : List RBFile) :
    (sortFiles l).Pairwise (fun a b => sortKey a ≤ sortKey b) := by
  induction l with
  | nil => exact List.Pairwise.nil
  | cons x xs ih => exact insertFile_sorted x (sortFiles xs) ih

/-- The sort keys of `<c>.1 .. <c>.K` are exactly `1 .. K`. -/
theorem canonicalFiles_map_sortKey (K : Nat) (ev : Nat → Nat) :
    (canonicalFiles K ev).map sortKey = List.range' 1 K := by
  unfold canonicalFiles
  rw [List.map_map]
  have hcomp : (sortKey ∘ fun n => (⟨some n, some (ev n)⟩ : RBFile)) = id :=
    funext fun n => rfl
  rw [hcomp, List.map_id]

/-- `<c>.1 .. <c>.K` in canonical order is strictly ascending in key. -/
theorem canonicalFiles_sorted_strict (K : Nat) (ev : Nat → Nat) :
    (canonicalFiles K ev).Pairwise (fun a b => sortKey a < sortKey b) := by
  unfold canonicalFiles
  rw [List.pairwise_map]
  exact (List.pairwise_lt_range' 1 K).imp (fun h => by simpa [sortKey] using h)

/-- A key-sorted list with pairwise-distinct keys is strictly sorted. -/
theorem sorted_strict_of_nodup_keys (l : List RBFile)
    (hs : l.Pairwise (fun a b => sortKey a ≤ sortKey b))
    (hn : (l.map sortKey).Nodup) :
    l.Pairwise (fun a b => sortKey a < sortKey b) := by
  have hne : l.Pairwise (fun a b => sortKey a ≠ sortKey b) := List.pairwise_map.mp hn
  exact (hs.and hne).imp (fun h => Nat.lt_of_le_of_ne h.1 h.2)

/-- Sorting any on-disk listing order of the files `<c>.1 .. <c>.K`
numerically recovers the canonical ascending order (this is where
numeric — not lexicographic — sorting matters: the glob may well list
`<c>.10` before `<c>.9`). -/
theorem sortFiles_eq_canonical (K : Nat) (ev : Nat → Nat) (files : List RBFile)
    (hperm : files.Perm (canonicalFiles K ev)) :
    sortFiles files = canonicalFiles K ev := by
  haveI : IsAntisymm RBFile (fun a b => sortKey a < sortKey b) :=
    ⟨fun a b h1 h2 => absurd h2 (Nat.lt_asymm h1)⟩
  have hperm2 : (sortFiles files).Perm (canonicalFiles K ev) :=
    (sortFiles_perm files).trans hperm
  apply List.eq_of_perm_of_sorted hperm2 ?_ (canonicalFiles_sorted_strict K ev)
  apply sorted_strict_of_nodup_keys _ (sortFiles_sorted files)
  have hkeys : ((sortFiles files).map sortKey).Perm (List.range' 1 K) := by
    have h1 := hperm2.map sortKey
    rwa [canonicalFiles_map_sortKey] at h1
  exact hkeys.nodup_iff.mpr (List.nodup_range' 1 K)

/-- Draining a consecutive run of decodable files starting right after the
cursor delivers them all in order, bumps the cursor and counter by the run
length, deletes every file and logs no warning. -/
theorem foldl_consecutive_run (w : Bool) (ev : Nat → Nat) :
    ∀ (len start : Nat) (s : DrainState), s.lastSeq + 1 = start →
      ((List.range' start len).map fun n => (⟨some n, some (ev n)⟩ : RBFile)).foldl
          (processFile w) s =
        ⟨s.lastSeq + len,
          s.delivered ++ (List.range' start len).map (fun n => (n, ev n)),
          s.count + len, s.remaining, s.gapWarnings⟩ := by
  intro len
  induction len with
  | zero =>
    intro start s h
    obtain ⟨a, b, c, d, e⟩ := s
    simp
  | succ m ih =>
    intro start s h
    subst h
    rw [List.range'_succ]
    simp only [List.map_cons, List.foldl_cons]
    have hstep : processFile w s ⟨some (s.lastSeq + 1), some (ev (s.lastSeq + 1))⟩ =
        ⟨s.lastSeq + 1, s.delivered ++ [(s.lastSeq + 1, ev (s.lastSeq + 1))],
          s.count + 1, s.remaining, s.gapWarnings⟩ := by
      simp [processFile]
    rw [hstep,
      ih (s.lastSeq + 1 + 1)
        ⟨s.lastSeq + 1, s.delivered ++ [(s.lastSeq + 1, ev (s.lastSeq + 1))],
          s.count + 1, s.remaining, s.gapWarnings⟩ rfl]
    have h1 : s.lastSeq + 1 + m = s.lastSeq + (m + 1) := by omega
    have h2 : s.count + 1 + m = s.count + (m + 1) := by omega
    simp [h1, h2, List.append_assoc]

/-- C8: for every set of ring-buffer files `<c>.1 .. <c>.K` (listed on
disk in any order `files`) present before the consumer's first drain of the
channel (`last_seq = 0`), one `_processRingBuffer` call delivers exactly
`K` events to the Cache in ascending numeric sequence order, returns `K`,
and leaves none of those files on disk. -/
theorem processRingBuffer_first_drain (w : Bool) (K : Nat) (ev : Nat → Nat)
    (files : List RBFile) (hperm : files.Perm (canonicalFiles K ev)) :
    processRingBuffer w 0 files =
      ⟨K, (List.range' 1 K).map (fun n => (n, ev n)), K, [], []⟩ := by
  unfold processRingBuffer
  rw [sortFiles_eq_canonical K ev files hperm]
  unfold canonicalFiles
  have h := foldl_consecutive_run w ev K 1 ⟨0, [], 0, [], []⟩ rfl
  simpa using h

/-- Witness for C8 at a concrete input: `K = 11` with the files listed in
lexicographic order (`1, 10, 11, 2, ..., 9`), so numeric sorting is
exercised, and event `n` decoding to `1000 + n`. -/
theorem processRingBuffer_first_drain_witness :
    processRingBuffer true 0
      [⟨some 1, some 1001⟩, ⟨some 10, some 1010⟩, ⟨some 11, some 1011⟩,
       ⟨some 2, some 1002⟩, ⟨some 3, some 1003⟩, ⟨some 4, some 1004⟩,
       ⟨some 5, some 1005⟩, ⟨some 6, some 1006⟩, ⟨some 7, some 1007⟩,
       ⟨some 8, some 1008⟩, ⟨some 9, some 1009⟩] =
      ⟨11, (List.range' 1 11).map (fun n => (n, 1000 + n)), 11, [], []⟩ :=
  processRingBuffer_first_drain true 11 (fun n => 1000 + n)
    [⟨some 1, some 1001⟩, ⟨some 10, some 1010⟩, ⟨some 11, some 1011⟩,
     ⟨some 2, some 1002⟩, ⟨some 3, some 1003⟩, ⟨some 4, some 1004⟩,
     ⟨some 5, some 1005⟩, ⟨some 6, some 1006⟩, ⟨some 7, some 1007⟩,
     ⟨some 8, some 1008⟩, ⟨some 9, some 1009⟩] (by decide)

end EscapeSDK
